import Mathlib

/-!
Verification of the throttle core and send dispatcher of the `django_ses`
email backend (`src/django_ses/__init__.py`), shallowly embedded in Lean.

Time instants and durations are modelled as rationals (Python `datetime`
arithmetic is exact integer-microsecond arithmetic and the float constants
involved, 2.0 and 0.5, are exactly representable, so `ℚ` is a faithful
idealisation).  The remote SES API, whose behaviour is an input to the
program, is modelled by explicit outcome parameters: `canConnect` (whether
`session.client('ses')` succeeds), `quota` (the `MaxSendRate` the remote
would report), and a `RemoteOutcome` per message (what `send_raw_email`
would do for it).
-/

namespace DjangoSES

/-- The constant `window = 2.0  # seconds` of `send_messages`. -/
def window : ℚ := 2

/-- The pruning loop of `send_messages` (lines 128-133): keep, in order,
exactly the entries `time` of `recent_send_times` with
`time > window_start` where `window_start = now - timedelta(seconds=window)`. -/
def prune (now : ℚ) (ts : List ℚ) : List ℚ :=
  ts.filter (fun t => now - window < t)

/-- Observable result of one execution of the throttle block of
`send_messages` (lines 110-150): the pruned `new_send_times`, whether the
`len(new_send_times) > rate_limit * window * self._throttle` branch was
entered, the argument of `sleep` when `sleep` was called, and the value of
`recent_send_times` after the unconditional append of `now`. -/
structure ThrottleStepResult where
  pruned : List ℚ
  delayConsidered : Bool
  slept : Option ℚ
  newTimes : List ℚ
  deriving DecidableEq

/-- The throttle block of `send_messages` (lines 127-149) for one message:
prune, compare the retained count against `rate_limit * window * factor`,
when it strictly exceeds compute `delay = window - (now - new_send_times[0])`
and sleep iff `delay > 0`, then append `now` unconditionally.
`List.headI` models `new_send_times[0]`; it agrees with the subscript
whenever the list is nonempty, which the guard guarantees whenever the
threshold is nonnegative. -/
def throttleStep (rate_limit factor now : ℚ) (ts : List ℚ) : ThrottleStepResult :=
  let newSendTimes := prune now ts
  let considered := decide (rate_limit * window * factor < (newSendTimes.length : ℚ))
  let slept : Option ℚ :=
    if rate_limit * window * factor < (newSendTimes.length : ℚ) then
      let total_seconds := now - newSendTimes.headI
      let delay := window - total_seconds
      if 0 < delay then Option.some delay else Option.none
    else Option.none
  ⟨newSendTimes, considered, slept, newSendTimes ++ [now]⟩

/-- Iterating the throttle block over a sequence of `now` instants, one per
message, threading `recent_send_times`; returns the per-step observations
and the final `recent_send_times`. -/
def throttleRun (rate_limit factor : ℚ) :
    List ℚ → List ℚ → List ThrottleStepResult × List ℚ
  | ts, [] => ([], ts)
  | ts, now :: rest =>
    let r := throttleStep rate_limit factor now ts
    let tail := throttleRun rate_limit factor r.newTimes rest
    (r :: tail.1, tail.2)

/- ### Basic pruning lemmas -/

lemma mem_prune {now t : ℚ} {ts : List ℚ} :
    t ∈ prune now ts ↔ t ∈ ts ∧ now - window < t := by
  simp [prune]

lemma prune_sublist (now : ℚ) (ts : List ℚ) : (prune now ts).Sublist ts :=
  List.filter_sublist ts

lemma prune_idem (now : ℚ) (ts : List ℚ) :
    prune now (prune now ts) = prune now ts := by
  simp [prune, List.filter_filter]

lemma prune_eq_self {now : ℚ} {ts : List ℚ} (h : ∀ t ∈ ts, now - window < t) :
    prune now ts = ts := by
  apply List.filter_eq_self.mpr
  intro a ha
  simpa using h a ha

/-- On a sorted timestamp list, pruning removes only an initial segment:
the retained entries are a suffix of the original list. -/
lemma prune_removes_front (now : ℚ) :
    ∀ ts : List ℚ, ts.Sorted (· ≤ ·) → ∃ pre, ts = pre ++ prune now ts := by
  intro ts hs
  induction ts with
  | nil => exact ⟨[], rfl⟩
  | cons a l ih =>
    rcases List.sorted_cons.mp hs with ⟨hal, hl⟩
    by_cases ha : now - window < a
    · refine ⟨[], ?_⟩
      have : prune now (a :: l) = a :: l := by
        apply prune_eq_self
        intro t ht
        rcases List.mem_cons.mp ht with h | h
        · simpa [h] using ha
        · exact lt_of_lt_of_le ha (hal t h)
      simp [this]
    · rcases ih hl with ⟨pre, hpre⟩
      refine ⟨a :: pre, ?_⟩
      have : prune now (a :: l) = prune now l := by
        simp [prune, List.filter_cons, ha]
      rw [this, List.cons_append, ← hpre]

lemma prune_sorted {now : ℚ} {ts : List ℚ} (hs : ts.Sorted (· ≤ ·)) :
    (prune now ts).Sorted (· ≤ ·) :=
  List.Pairwise.sublist (prune_sublist now ts) hs

/- ### Definitional field laws of the throttle step -/

lemma throttleStep_pruned (rate_limit factor now : ℚ) (ts : List ℚ) :
    (throttleStep rate_limit factor now ts).pruned = prune now ts := rfl

lemma throttleStep_delayConsidered (rate_limit factor now : ℚ) (ts : List ℚ) :
    (throttleStep rate_limit factor now ts).delayConsidered =
      decide (rate_limit * window * factor < ((prune now ts).length : ℚ)) := rfl

lemma throttleStep_slept (rate_limit factor now : ℚ) (ts : List ℚ) :
    (throttleStep rate_limit factor now ts).slept =
      if rate_limit * window * factor < ((prune now ts).length : ℚ) then
        if 0 < window - (now - (prune now ts).headI) then
          Option.some (window - (now - (prune now ts).headI))
        else Option.none
      else Option.none := rfl

lemma throttleStep_newTimes (rate_limit factor now : ℚ) (ts : List ℚ) :
    (throttleStep rate_limit factor now ts).newTimes = prune now ts ++ [now] := rfl

/- ### C1 -/

/-- C1: in the throttle step, a delay is considered exactly when the number
of retained entries strictly exceeds `rate_limit * 2.0 * throttle_factor`
(equality applies no delay); when a sleep happens its duration is
`2.0 - (now - oldest retained entry)` and it happens only when that value is
positive; conversely, when the branch is entered and the value is positive,
the thread is slept for exactly that value. -/
theorem C1_throttle_delay (rate_limit factor now : ℚ) (ts : List ℚ)
    (hth : 0 ≤ rate_limit * window * factor) :
    ((throttleStep rate_limit factor now ts).delayConsidered = true ↔
      rate_limit * window * factor < ((prune now ts).length : ℚ)) ∧
    (((prune now ts).length : ℚ) = rate_limit * window * factor →
      (throttleStep rate_limit factor now ts).slept = Option.none) ∧
    ((throttleStep rate_limit factor now ts).delayConsidered = false →
      (throttleStep rate_limit factor now ts).slept = Option.none) ∧
    (∀ d, (throttleStep rate_limit factor now ts).slept = Option.some d →
      prune now ts ≠ [] ∧ d = window - (now - (prune now ts).headI) ∧ 0 < d) ∧
    ((throttleStep rate_limit factor now ts).delayConsidered = true →
      0 < window - (now - (prune now ts).headI) →
      (throttleStep rate_limit factor now ts).slept =
        Option.some (window - (now - (prune now ts).headI))) := by
  rw [throttleStep_delayConsidered, throttleStep_slept]
  refine ⟨by simp, ?_, ?_, ?_, ?_⟩
  · intro heq
    rw [if_neg (by rw [heq]; exact lt_irrefl _)]
  · intro hnot
    rw [decide_eq_false_iff_not] at hnot
    rw [if_neg hnot]
  · intro d hd
    split_ifs at hd with hc hpos
    · obtain rfl := (Option.some.inj hd).symm
      refine ⟨?_, rfl, hpos⟩
      intro hnil
      rw [hnil] at hc
      simp only [List.length_nil, Nat.cast_zero] at hc
      exact absurd (lt_of_le_of_lt hth hc) (lt_irrefl 0)
  · intro hc hpos
    rw [decide_eq_true_eq] at hc
    rw [if_pos hc, if_pos hpos]

/-- Witness for C1 at `rate_limit = 1`, `factor = 1/2`, `now = 0`,
`recent_send_times = [-1, -1/2]`: the threshold is `1`, two entries are
retained, and the sleep duration is `2 - (0 - (-1)) = 1`. -/
theorem C1_throttle_delay_witness :
    (throttleStep 1 (1/2) 0 [-1, -1/2]).delayConsidered = true ∧
    (throttleStep 1 (1/2) 0 [-1, -1/2]).slept =
      Option.some (window - (0 - (prune 0 [-1, -1/2]).headI)) := by
  have h := C1_throttle_delay 1 (1/2) 0 [-1, -1/2] (by norm_num [window])
  have hpr : prune 0 [-1, -1/2] = [-1, -1/2] := by
    norm_num [prune, window, List.filter]
  refine ⟨?_, h.2.2.2.2 ?_ ?_⟩
  · rw [throttleStep_delayConsidered, hpr]
    norm_num [window]
  · rw [throttleStep_delayConsidered, hpr]
    norm_num [window]
  · rw [hpr]
    norm_num [window, List.headI]

/- ### C3 -/

/-- C3: pruning retains exactly the entries strictly greater than
`now - 2.0`, in their original order (it is a sublist, every retained entry
is in the window, every in-window entry of the original list is retained
with its multiplicity), and pruning is idempotent. -/
theorem C3_prune_exact (now : ℚ) (ts : List ℚ) :
    (prune now ts).Sublist ts ∧
    (∀ t ∈ prune now ts, now - window < t) ∧
    (∀ t, now - window < t → (prune now ts).count t = ts.count t) ∧
    prune now (prune now ts) = prune now ts := by
  refine ⟨prune_sublist now ts, ?_, ?_, prune_idem now ts⟩
  · intro t ht
    exact (mem_prune.mp ht).2
  · intro t ht
    simp [prune, List.count_filter, ht]

/-- Witness for C3 at `now = 0`, `recent_send_times = [-3, -1]`: the entry
`-1` (inside the window) is retained and pruning twice equals pruning once. -/
theorem C3_prune_exact_witness :
    (prune 0 [-3, -1]).count (-1) = ([(-3 : ℚ), -1]).count (-1) ∧
    prune 0 (prune 0 [-3, -1]) = prune 0 [-3, -1] := by
  have h := C3_prune_exact 0 [-3, -1]
  exact ⟨h.2.2.1 (-1) (by norm_num [window]), h.2.2.2⟩

/- ### C9 -/

/-- C9: when the shared timestamp sequence is sorted and all its entries
precede `now`, the throttle step's decision point sees only entries within
`window` of `now`, pruning removes only an initial segment (the retained
entries are a suffix of the original sequence), `now` is appended
unconditionally after the decision, and the resulting sequence is again
sorted. -/
theorem C9_window_invariant (rate_limit factor now : ℚ) (ts : List ℚ)
    (hs : ts.Sorted (· ≤ ·)) (hb : ∀ t ∈ ts, t ≤ now) :
    (∀ t ∈ (throttleStep rate_limit factor now ts).pruned,
        now - t < window ∧ 0 ≤ now - t) ∧
    (∃ pre, ts = pre ++ (throttleStep rate_limit factor now ts).pruned) ∧
    (throttleStep rate_limit factor now ts).newTimes =
      (throttleStep rate_limit factor now ts).pruned ++ [now] ∧
    (throttleStep rate_limit factor now ts).newTimes.Sorted (· ≤ ·) := by
  have hpr : (throttleStep rate_limit factor now ts).pruned = prune now ts := rfl
  have hnew : (throttleStep rate_limit factor now ts).newTimes =
      prune now ts ++ [now] := rfl
  refine ⟨?_, ?_, by rw [hpr, hnew], ?_⟩
  · intro t ht
    rw [hpr] at ht
    rcases mem_prune.mp ht with ⟨hmem, hwin⟩
    exact ⟨by linarith, by linarith [hb t hmem]⟩
  · rw [hpr]
    exact prune_removes_front now ts hs
  · rw [hnew]
    refine List.pairwise_append.mpr ⟨prune_sorted hs, List.sorted_singleton now, ?_⟩
    intro x hx y hy
    rw [List.mem_singleton] at hy
    rw [hy]
    exact hb x ((prune_sublist now ts).subset hx)

/-- Witness for C9 at `now = 1`, `recent_send_times = [0, 1]`. -/
theorem C9_window_invariant_witness :
    (∃ pre, [(0 : ℚ), 1] = pre ++ (throttleStep 1 (1/2) 1 [0, 1]).pruned) ∧
    (throttleStep 1 (1/2) 1 [0, 1]).newTimes =
      (throttleStep 1 (1/2) 1 [0, 1]).pruned ++ [1] ∧
    (throttleStep 1 (1/2) 1 [0, 1]).newTimes.Sorted (· ≤ ·) := by
  have h := C9_window_invariant 1 (1/2) 1 [0, 1]
      (by simp [List.sorted_cons]) (by intro t ht; simp at ht; rcases ht with h | h <;> simp [h])
  exact ⟨h.2.1, h.2.2.1, h.2.2.2⟩

/- ### C2: back-to-back sends at a single instant -/

lemma prune_replicate (t0 : ℚ) (k : ℕ) :
    prune t0 (List.replicate k t0) = List.replicate k t0 := by
  apply prune_eq_self
  intro t ht
  rw [List.eq_of_mem_replicate ht]
  norm_num [window]

/-- One throttle step with `rate_limit = 10`, `factor = 1/2` on a list of
`k` copies of the current instant: nothing is pruned, the branch is entered
iff `10 < k`, and then the sleep is `window - (t0 - t0) = 2`. -/
lemma throttleStep_replicate (t0 : ℚ) (k : ℕ) :
    throttleStep 10 (1/2) t0 (List.replicate k t0) =
      ⟨List.replicate k t0, decide ((10 : ℚ) < (k : ℚ)),
        if (10 : ℚ) < (k : ℚ) then Option.some 2 else Option.none,
        List.replicate (k + 1) t0⟩ := by
  have hth : (10 : ℚ) * window * (1/2) = 10 := by norm_num [window]
  have hpr := prune_replicate t0 k
  have e1 : (throttleStep 10 (1/2) t0 (List.replicate k t0)).pruned =
      List.replicate k t0 := by
    rw [throttleStep_pruned, hpr]
  have e2 : (throttleStep 10 (1/2) t0 (List.replicate k t0)).delayConsidered =
      decide ((10 : ℚ) < (k : ℚ)) := by
    rw [throttleStep_delayConsidered, hpr, hth, List.length_replicate]
  have e3 : (throttleStep 10 (1/2) t0 (List.replicate k t0)).slept =
      (if (10 : ℚ) < (k : ℚ) then Option.some 2 else Option.none) := by
    rw [throttleStep_slept, hpr, hth, List.length_replicate]
    by_cases hc : (10 : ℚ) < (k : ℚ)
    · rw [if_pos hc, if_pos hc]
      have hk : k ≠ 0 := by
        intro h
        rw [h] at hc
        norm_num at hc
      obtain ⟨m, rfl⟩ := Nat.exists_eq_succ_of_ne_zero hk
      rw [List.replicate_succ, List.headI_cons]
      norm_num [window]
    · rw [if_neg hc, if_neg hc]
  have e4 : (throttleStep 10 (1/2) t0 (List.replicate k t0)).newTimes =
      List.replicate (k + 1) t0 := by
    rw [throttleStep_newTimes, hpr, ← List.replicate_succ']
  have heta : throttleStep 10 (1/2) t0 (List.replicate k t0) =
      ⟨(throttleStep 10 (1/2) t0 (List.replicate k t0)).pruned,
        (throttleStep 10 (1/2) t0 (List.replicate k t0)).delayConsidered,
        (throttleStep 10 (1/2) t0 (List.replicate k t0)).slept,
        (throttleStep 10 (1/2) t0 (List.replicate k t0)).newTimes⟩ := rfl
  rw [heta, e1, e2, e3, e4]

/-- Iterating the throttle block over `m` sends all happening at the same
instant `t0`, starting from `k` retained copies of `t0`. -/
lemma throttleRun_replicate (t0 : ℚ) :
    ∀ (m k : ℕ),
      throttleRun 10 (1/2) (List.replicate k t0) (List.replicate m t0) =
        ((List.range m).map
            (fun i => throttleStep 10 (1/2) t0 (List.replicate (k + i) t0)),
          List.replicate (k + m) t0)
  | 0, k => by simp [throttleRun]
  | m + 1, k => by
    rw [List.replicate_succ]
    simp only [throttleRun, throttleStep_replicate]
    rw [throttleRun_replicate t0 m (k + 1)]
    rw [List.range_succ_eq_map, List.map_cons, List.map_map]
    refine Prod.ext ?_ ?_
    · simp only [throttleStep_replicate, Nat.add_zero, Function.comp]
      refine List.cons_eq_cons.mpr ⟨rfl, ?_⟩
      apply List.map_congr_left
      intro i _
      have h : k + 1 + i = Nat.succ (k + i) := by omega
      have h' : k + Nat.succ i = Nat.succ (k + i) := by omega
      simp only [Function.comp_apply, h, h']
    · have h2 : k + 1 + m = k + (m + 1) := by omega
      rw [h2]

lemma throttleStep_replicate_flag_false (t0 : ℚ) {k : ℕ} (hk : k ≤ 10) :
    (throttleStep 10 (1/2) t0 (List.replicate k t0)).delayConsidered = false := by
  rw [throttleStep_replicate]
  apply decide_eq_false
  rw [not_lt]
  exact_mod_cast hk

lemma throttleStep_replicate_flag_true (t0 : ℚ) {k : ℕ} (hk : 10 < k) :
    (throttleStep 10 (1/2) t0 (List.replicate k t0)).delayConsidered = true := by
  rw [throttleStep_replicate]
  apply decide_eq_true
  exact_mod_cast hk

lemma throttleStep_replicate_slept_none (t0 : ℚ) {k : ℕ} (hk : k ≤ 10) :
    (throttleStep 10 (1/2) t0 (List.replicate k t0)).slept = Option.none := by
  rw [throttleStep_replicate]
  show (if (10 : ℚ) < (k : ℚ) then Option.some 2 else Option.none) = Option.none
  rw [if_neg]
  rw [not_lt]
  exact_mod_cast hk

lemma throttleStep_replicate_slept_two (t0 : ℚ) {k : ℕ} (hk : 10 < k) :
    (throttleStep 10 (1/2) t0 (List.replicate k t0)).slept = Option.some 2 := by
  rw [throttleStep_replicate]
  show (if (10 : ℚ) < (k : ℚ) then Option.some 2 else Option.none) = Option.some 2
  rw [if_pos]
  exact_mod_cast hk

/-- C2 counterexample: with `rate_limit = 10`, `throttle_factor = 0.5`
(threshold `10`, strict comparison), 11 back-to-back sends all at `t0 = 0`
trigger NO delay computation at all — not one on the 11th send as claimed:
before the 11th send exactly 10 timestamps are retained and `10 > 10` is
false. -/
theorem C2_counterexample :
    ((throttleRun 10 (1/2) [] (List.replicate 11 (0 : ℚ))).1.map
        (fun r => r.delayConsidered) = List.replicate 11 false) ∧
    ¬ ((throttleRun 10 (1/2) [] (List.replicate 11 (0 : ℚ))).1.map
        (fun r => r.delayConsidered) = List.replicate 10 false ++ [true]) := by
  have h0 : ([] : List ℚ) = List.replicate 0 (0 : ℚ) := rfl
  have h : (throttleRun 10 (1/2) [] (List.replicate 11 (0 : ℚ))).1.map
      (fun r => r.delayConsidered) = List.replicate 11 false := by
    rw [h0, throttleRun_replicate (0 : ℚ) 11 0]
    simp only [List.map_map]
    apply List.eq_replicate_iff.mpr
    refine ⟨by simp, ?_⟩
    intro b hb
    rw [List.mem_map] at hb
    obtain ⟨i, hi, rfl⟩ := hb
    rw [List.mem_range] at hi
    exact throttleStep_replicate_flag_false 0 (by omega)
  refine ⟨h, ?_⟩
  rw [h]
  decide

/-- C2 amended: with `rate_limit = 10`, `throttle_factor = 0.5`, and
`window = 2.0` (threshold 10), sending 12 messages back-to-back all at the
same instant `t0` triggers exactly one delay computation, occurring on the
12th send (the first 11 sends trigger none), with
`delay = 2.0 - (t0 - oldest retained entry) = 2`. -/
theorem C2_amended_twelve (t0 : ℚ) :
    ((throttleRun 10 (1/2) [] (List.replicate 12 t0)).1.map
        (fun r => r.delayConsidered) = List.replicate 11 false ++ [true]) ∧
    ((throttleRun 10 (1/2) [] (List.replicate 12 t0)).1.map
        (fun r => r.slept) =
      List.replicate 11 Option.none ++ [Option.some (window - (t0 - t0))]) ∧
    window - (t0 - t0) = 2 := by
  have h2 : window - (t0 - t0) = 2 := by norm_num [window]
  have h0 : ([] : List ℚ) = List.replicate 0 t0 := rfl
  have h12 : (12 : ℕ) = 11 + 1 := rfl
  refine ⟨?_, ?_, h2⟩
  · rw [h0, throttleRun_replicate t0 12 0]
    simp only [List.map_map]
    rw [h12, List.range_succ, List.map_append]
    congr 1
    · apply List.eq_replicate_iff.mpr
      refine ⟨by simp, ?_⟩
      intro b hb
      rw [List.mem_map] at hb
      obtain ⟨i, hi, rfl⟩ := hb
      rw [List.mem_range] at hi
      exact throttleStep_replicate_flag_false t0 (by omega)
    · rw [List.map_singleton]
      refine List.cons_eq_cons.mpr ⟨?_, rfl⟩
      exact throttleStep_replicate_flag_true t0 (by omega)
  · rw [h2, h0, throttleRun_replicate t0 12 0]
    simp only [List.map_map]
    rw [h12, List.range_succ, List.map_append]
    congr 1
    · apply List.eq_replicate_iff.mpr
      refine ⟨by simp, ?_⟩
      intro b hb
      rw [List.mem_map] at hb
      obtain ⟨i, hi, rfl⟩ := hb
      rw [List.mem_range] at hi
      exact throttleStep_replicate_slept_none t0 (by omega)
    · rw [List.map_singleton]
      refine List.cons_eq_cons.mpr ⟨?_, rfl⟩
      exact throttleStep_replicate_slept_two t0 (by omega)

/- ### The send dispatcher and rate-limit cache -/

/-- The mutable state touched by `SESBackend`: `self.connection` (is a
client handle present?), the module-level `recent_send_times`, and the
module-level `cached_rate_limits` restricted to the one configured
credential identity (`settings.ACCESS_KEY`), since a backend only ever
reads and writes the entry for its own key. -/
structure BackendState where
  connection : Bool
  recentSendTimes : List ℚ
  cachedRateLimits : Option ℚ
  deriving DecidableEq

/-- Python truthiness of an `Option Bool` return value (`None` is falsy). -/
def truthy : Option Bool → Bool
  | Option.none => false
  | Option.some b => b

/-- `SESBackend.open` (lines 69-80): if `self.connection` is set, return
`False`; otherwise create the client (`canConnect` says whether
`session.client('ses')` succeeds).  On success the method falls off the
end, i.e. returns Python `None` — there is no `return True`.  On failure it
re-raises unless `fail_silently`.  Result: `Except` models the raise;
otherwise the pair is (new `self.connection`, the Python return value). -/
def openConn (canConnect failSilently : Bool) (conn : Bool) :
    Except Unit (Bool × Option Bool) :=
  if conn then Except.ok (conn, Option.some false)
  else if canConnect then Except.ok (true, Option.none)
  else if failSilently then Except.ok (false, Option.none)
  else Except.error ()

/-- Result of `SESBackend.get_rate_limit`: the returned float, the state
afterwards, and how many remote `get_send_quota` calls were made. -/
structure RateLimitOut where
  value : ℚ
  st : BackendState
  quotaCalls : ℕ
  deriving DecidableEq

/-- `SESBackend.get_rate_limit` (lines 190-206): return the cached value
for the credential identity if present (no remote call); otherwise open a
connection (raising `Exception` when none results), query
`get_send_quota()`, cache `float(MaxSendRate)` (the remote reports
`quota`), return it, and in the `finally` block close the connection only
if `new_conn_created` — the `open()` return value — is truthy. -/
def get_rate_limit (canConnect failSilently : Bool) (quota : ℚ)
    (st : BackendState) : Except Unit RateLimitOut :=
  match st.cachedRateLimits with
  | Option.some r => Except.ok ⟨r, st, 0⟩
  | Option.none =>
    match openConn canConnect failSilently st.connection with
    | Except.error _ => Except.error ()
    | Except.ok (conn1, ret) =>
      if conn1 = false then Except.error ()
      else
        Except.ok ⟨quota,
          { connection := if truthy ret then false else conn1
            recentSendTimes := st.recentSendTimes
            cachedRateLimits := Option.some quota }, 1⟩

/-- What the remote `send_raw_email` would do for one message: succeed
(with the response fields read by the success path), raise
`botocore.exceptions.ClientError` (with the six attributes read by the
handler), or raise some other exception. -/
inductive RemoteOutcome where
  | success (status : ℕ) (messageId requestId : String)
  | clientError (status reason body requestId errorCode errorMessage : Option String)
  | otherError
  deriving DecidableEq

/-- One input message: the `datetime.now()` observed for its throttle step
and the remote outcome of its send. -/
structure MsgInput where
  now : ℚ
  outcome : RemoteOutcome
  deriving DecidableEq

/-- The result annotations written into `message.extra_headers`: nothing,
the success fields (lines 165-167), or the six failure fields
(lines 178-181). -/
inductive MsgMeta where
  | noneRecorded
  | successMeta (status : ℕ) (messageId requestId : String)
  | errorMeta (status reason body requestId errorCode errorMessage : Option String)
  deriving DecidableEq

def RemoteOutcome.isSuccess : RemoteOutcome → Bool
  | RemoteOutcome.success _ _ _ => true
  | _ => false

/-- Python truthiness of `self._throttle` (`if self._throttle:`):
`None`, `0` and `0.0` are falsy, everything else truthy. -/
def throttleEnabled : Option ℚ → Bool
  | Option.none => false
  | Option.some q => decide (q ≠ 0)

/-- The `try/except` around `send_raw_email` (lines 152-183): whether an
exception propagates out of the loop body, the updated `num_sent`, and the
metadata written on the message.  A non-`ClientError` exception is not
caught, so nothing is written and it propagates regardless of
`fail_silently`. -/
def dispatch (failSilently : Bool) (numSent : ℕ) (m : MsgInput) :
    Bool × ℕ × MsgMeta :=
  match m.outcome with
  | RemoteOutcome.success s mid rid =>
    (false, numSent + 1, MsgMeta.successMeta s mid rid)
  | RemoteOutcome.clientError a b c d e f =>
    if failSilently then (false, numSent, MsgMeta.errorMeta a b c d e f)
    else (true, numSent, MsgMeta.errorMeta a b c d e f)
  | RemoteOutcome.otherError => (true, numSent, MsgMeta.noneRecorded)

/-- Observations of the `for message in email_messages:` loop: whether an
exception propagated, the final `num_sent`, the metadata recorded per input
message (`noneRecorded` for messages never processed), the arguments of the
`sleep` calls performed, the final state, and the numbers of
`send_raw_email` calls, remote `get_send_quota` calls, and
`get_rate_limit` invocations. -/
structure LoopOut where
  raised : Bool
  numSent : ℕ
  metas : List MsgMeta
  sleeps : List ℚ
  st : BackendState
  remoteSends : ℕ
  quotaCalls : ℕ
  rlCalls : ℕ
  deriving DecidableEq

/-- The per-message loop of `send_messages` (lines 104-183). -/
def sendLoop (failSilently canConnect : Bool) (thr : Option ℚ) (quota : ℚ) :
    ℕ → BackendState → List MsgInput → LoopOut
  | numSent, st, [] => ⟨false, numSent, [], [], st, 0, 0, 0⟩
  | numSent, st, m :: rest =>
    if throttleEnabled thr then
      match get_rate_limit canConnect failSilently quota st with
      | Except.error _ =>
        ⟨true, numSent, List.replicate (rest.length + 1) MsgMeta.noneRecorded,
          [], st, 0, 0, 1⟩
      | Except.ok rlOut =>
        let r := throttleStep rlOut.value (thr.getD 0) m.now rlOut.st.recentSendTimes
        let st1 : BackendState :=
          { connection := rlOut.st.connection
            recentSendTimes := r.newTimes
            cachedRateLimits := rlOut.st.cachedRateLimits }
        let sl : List ℚ := match r.slept with
          | Option.some d => [d]
          | Option.none => []
        let d := dispatch failSilently numSent m
        if d.1 then
          ⟨true, d.2.1, d.2.2 :: List.replicate rest.length MsgMeta.noneRecorded,
            sl, st1, 1, rlOut.quotaCalls, 1⟩
        else
          let out := sendLoop failSilently canConnect thr quota d.2.1 st1 rest
          ⟨out.raised, out.numSent, d.2.2 :: out.metas, sl ++ out.sleeps, out.st,
            1 + out.remoteSends, rlOut.quotaCalls + out.quotaCalls, 1 + out.rlCalls⟩
    else
      let d := dispatch failSilently numSent m
      if d.1 then
        ⟨true, d.2.1, d.2.2 :: List.replicate rest.length MsgMeta.noneRecorded,
          [], st, 1, 0, 0⟩
      else
        let out := sendLoop failSilently canConnect thr quota d.2.1 st rest
        ⟨out.raised, out.numSent, d.2.2 :: out.metas, out.sleeps, out.st,
          1 + out.remoteSends, out.quotaCalls, out.rlCalls⟩

/-- Python return value of `send_messages`: an exception propagated, a bare
`return` (Python `None`), or `return num_sent`. -/
inductive SendRet where
  | raised
  | retNone
  | count (n : ℕ)
  deriving DecidableEq

/-- Full observations of one `send_messages` call. -/
structure SendTrace where
  ret : SendRet
  metas : List MsgMeta
  sleeps : List ℚ
  st : BackendState
  remoteSends : ℕ
  quotaCalls : ℕ
  rlCalls : ℕ
  deriving DecidableEq

/-- `SESBackend.send_messages` (lines 91-188): bare `return` on an empty
input; `new_conn_created = self.open()`; bare `return` when
`self.connection` is still unset (failed silently); the per-message loop;
then `if new_conn_created: self.close()` — testing the truthiness of
`open()`'s return value — and `return num_sent`. -/
def send_messages (failSilently canConnect : Bool) (thr : Option ℚ)
    (quota : ℚ) (st : BackendState) (msgs : List MsgInput) : SendTrace :=
  if msgs.isEmpty then ⟨SendRet.retNone, [], [], st, 0, 0, 0⟩
  else
    match openConn canConnect failSilently st.connection with
    | Except.error _ =>
      ⟨SendRet.raised, List.replicate msgs.length MsgMeta.noneRecorded,
        [], st, 0, 0, 0⟩
    | Except.ok (conn1, ret) =>
      let st1 : BackendState :=
        { connection := conn1
          recentSendTimes := st.recentSendTimes
          cachedRateLimits := st.cachedRateLimits }
      if conn1 = false then
        ⟨SendRet.retNone, List.replicate msgs.length MsgMeta.noneRecorded,
          [], st1, 0, 0, 0⟩
      else
        let out := sendLoop failSilently canConnect thr quota 0 st1 msgs
        if out.raised then
          ⟨SendRet.raised, out.metas, out.sleeps, out.st, out.remoteSends,
            out.quotaCalls, out.rlCalls⟩
        else
          let st2 : BackendState :=
            if truthy ret then
              { connection := false
                recentSendTimes := out.st.recentSendTimes
                cachedRateLimits := out.st.cachedRateLimits }
            else out.st
          ⟨SendRet.count out.numSent, out.metas, out.sleeps, st2,
            out.remoteSends, out.quotaCalls, out.rlCalls⟩

/- ### Loop lemmas -/

/-- When the loop finishes without an exception, `num_sent` has counted
exactly the messages whose remote send succeeded. -/
lemma sendLoop_count (fs cc : Bool) (thr : Option ℚ) (q : ℚ) :
    ∀ (msgs : List MsgInput) (n : ℕ) (st : BackendState),
      (sendLoop fs cc thr q n st msgs).raised = false →
      (sendLoop fs cc thr q n st msgs).numSent =
        n + msgs.countP (fun x => x.outcome.isSuccess)
  | [], n, st => by
    intro _
    simp [sendLoop]
  | m :: rest, n, st => by
    intro h
    rcases m with ⟨nw, oc⟩
    by_cases hth : throttleEnabled thr
    · simp only [sendLoop, hth, if_true] at h ⊢
      set grl := get_rate_limit cc fs q st with hgrl
      rcases grl with e | rlOut
      · simp only [] at h
        exact absurd h (by simp)
      · simp only [] at h ⊢
        rcases oc with ⟨s, mid, rid⟩ | ⟨a, b, c, d, e, f⟩ | _
        · simp only [dispatch] at h ⊢
          rw [sendLoop_count fs cc thr q rest (n + 1) _ h]
          simp [RemoteOutcome.isSuccess, List.countP_cons]
          omega
        · rcases fs with _ | _
          · simp [dispatch] at h
          · simp only [dispatch, if_true] at h ⊢
            rw [sendLoop_count true cc thr q rest n _ h]
            simp [RemoteOutcome.isSuccess, List.countP_cons]
        · simp [dispatch] at h
    · simp only [sendLoop, hth, Bool.false_eq_true, if_false] at h ⊢
      rcases oc with ⟨s, mid, rid⟩ | ⟨a, b, c, d, e, f⟩ | _
      · simp only [dispatch] at h ⊢
        rw [sendLoop_count fs cc thr q rest (n + 1) _ h]
        simp [RemoteOutcome.isSuccess, List.countP_cons]
        omega
      · rcases fs with _ | _
        · simp [dispatch] at h
        · simp only [dispatch, if_true] at h ⊢
          rw [sendLoop_count true cc thr q rest n _ h]
          simp [RemoteOutcome.isSuccess, List.countP_cons]
      · simp [dispatch] at h

/-- When throttling is disabled the loop leaves the state untouched,
sleeps never, makes no quota call and never invokes `get_rate_limit`. -/
lemma sendLoop_disabled (fs cc : Bool) (thr : Option ℚ) (q : ℚ)
    (hdis : throttleEnabled thr = false) :
    ∀ (msgs : List MsgInput) (n : ℕ) (st : BackendState),
      (sendLoop fs cc thr q n st msgs).st = st ∧
      (sendLoop fs cc thr q n st msgs).sleeps = [] ∧
      (sendLoop fs cc thr q n st msgs).quotaCalls = 0 ∧
      (sendLoop fs cc thr q n st msgs).rlCalls = 0
  | [], n, st => by simp [sendLoop]
  | m :: rest, n, st => by
    have ih := sendLoop_disabled fs cc thr q hdis rest (dispatch fs n m).2.1 st
    simp only [sendLoop, hdis, Bool.false_eq_true, if_false]
    by_cases hd : (dispatch fs n m).1 <;>
      simp [hd, ih.1, ih.2.1, ih.2.2.1, ih.2.2.2]

/-- Whenever the throttle block cannot raise (throttling disabled, or
`get_rate_limit` succeeds), the loop head behaves as: dispatch the message,
and either abort or continue from some intermediate state. -/
lemma sendLoop_cons_reach (fs cc : Bool) (thr : Option ℚ) (q : ℚ) (n : ℕ)
    (st : BackendState) (m : MsgInput) (rest : List MsgInput)
    (hrl : throttleEnabled thr = true →
      get_rate_limit cc fs q st ≠ Except.error ()) :
    ∃ st' sl qc rc,
      sendLoop fs cc thr q n st (m :: rest) =
        (if (dispatch fs n m).1 then
          ⟨true, (dispatch fs n m).2.1,
            (dispatch fs n m).2.2 :: List.replicate rest.length MsgMeta.noneRecorded,
            sl, st', 1, qc, rc⟩
        else
          ⟨(sendLoop fs cc thr q (dispatch fs n m).2.1 st' rest).raised,
            (sendLoop fs cc thr q (dispatch fs n m).2.1 st' rest).numSent,
            (dispatch fs n m).2.2 ::
              (sendLoop fs cc thr q (dispatch fs n m).2.1 st' rest).metas,
            sl ++ (sendLoop fs cc thr q (dispatch fs n m).2.1 st' rest).sleeps,
            (sendLoop fs cc thr q (dispatch fs n m).2.1 st' rest).st,
            1 + (sendLoop fs cc thr q (dispatch fs n m).2.1 st' rest).remoteSends,
            qc + (sendLoop fs cc thr q (dispatch fs n m).2.1 st' rest).quotaCalls,
            rc + (sendLoop fs cc thr q (dispatch fs n m).2.1 st' rest).rlCalls⟩) := by
  by_cases hth : throttleEnabled thr
  · rcases hok : get_rate_limit cc fs q st with e | rlOut
    · cases e
      exact absurd hok (hrl hth)
    · refine ⟨⟨rlOut.st.connection,
          (throttleStep rlOut.value (thr.getD 0) m.now
            rlOut.st.recentSendTimes).newTimes,
          rlOut.st.cachedRateLimits⟩,
        (match (throttleStep rlOut.value (thr.getD 0) m.now
            rlOut.st.recentSendTimes).slept with
          | Option.some d => [d]
          | Option.none => []),
        rlOut.quotaCalls, 1, ?_⟩
      simp only [sendLoop, hth, if_true]
      rw [hok]
  · refine ⟨st, [], 0, 0, ?_⟩
    simp only [sendLoop, hth, Bool.false_eq_true, if_false]
    by_cases hd : (dispatch fs n m).1 <;> simp [hd]

/- ### C4 -/

/-- A `count` return value can only come from a completed loop. -/
lemma send_messages_ret_count (fs cc : Bool) (thr : Option ℚ) (q : ℚ)
    (st : BackendState) (msgs : List MsgInput) (k : ℕ)
    (hk : (send_messages fs cc thr q st msgs).ret = SendRet.count k) :
    ∃ st1, (sendLoop fs cc thr q 0 st1 msgs).raised = false ∧
      k = (sendLoop fs cc thr q 0 st1 msgs).numSent := by
  simp only [send_messages] at hk
  split at hk
  · exact absurd hk (by simp)
  · split at hk
    · exact absurd hk (by simp)
    · split at hk
      · exact absurd hk (by simp)
      · split at hk
        · exact absurd hk (by simp)
        · rename_i conn1ret hconn hraise
          simp only [SendRet.count.injEq] at hk
          exact ⟨_, Bool.not_eq_true _ ▸ eq_false_of_ne_true hraise, hk.symm⟩

/-- C4: `send_messages` returns a bare `None` on an empty input batch
(performing no remote send, quota call, rate-limit lookup or sleep), a bare
`None` when no connection could be opened and fail-silently is enabled, and
otherwise, whenever it returns a count, that count is exactly the number of
messages whose remote send succeeded. -/
theorem C4_return_value (failSilently canConnect : Bool) (thr : Option ℚ)
    (quota : ℚ) (st : BackendState) (msgs : List MsgInput) :
    (msgs = [] → send_messages failSilently canConnect thr quota st msgs =
      ⟨SendRet.retNone, [], [], st, 0, 0, 0⟩) ∧
    (st.connection = false → canConnect = false → failSilently = true →
      (send_messages failSilently canConnect thr quota st msgs).ret =
        SendRet.retNone) ∧
    (∀ k, (send_messages failSilently canConnect thr quota st msgs).ret =
        SendRet.count k →
      k = msgs.countP (fun x => x.outcome.isSuccess)) := by
  refine ⟨?_, ?_, ?_⟩
  · intro h
    subst h
    rfl
  · intro h1 h2 h3
    rcases st with ⟨conn, rst, crl⟩
    simp only at h1
    subst h1
    subst h2
    subst h3
    rcases msgs with _ | ⟨m, ms⟩ <;> rfl
  · intro k hk
    obtain ⟨st1, hr, hn⟩ := send_messages_ret_count _ _ _ _ _ _ _ hk
    rw [hn, sendLoop_count failSilently canConnect thr quota msgs 0 st1 hr,
      Nat.zero_add]

/-- Witness for C4: an empty batch returns `None` with no calls, a
fail-silently connection failure returns `None`, and a completed
two-message batch with one success returns count 1. -/
theorem C4_return_value_witness :
    send_messages true false Option.none 5 ⟨false, [], Option.none⟩ [] =
      ⟨SendRet.retNone, [], [], ⟨false, [], Option.none⟩, 0, 0, 0⟩ ∧
    (send_messages true false Option.none 5 ⟨false, [], Option.none⟩
        [⟨0, RemoteOutcome.success 200 "a" "b"⟩]).ret = SendRet.retNone ∧
    (1 : ℕ) = List.countP (fun (x : MsgInput) => x.outcome.isSuccess)
        [⟨(0 : ℚ), RemoteOutcome.clientError Option.none Option.none Option.none
            Option.none Option.none Option.none⟩,
          ⟨(0 : ℚ), RemoteOutcome.success 200 "a" "b"⟩] := by
  have h := C4_return_value true false Option.none 5 ⟨false, [], Option.none⟩ []
  have h2 := C4_return_value true false Option.none 5 ⟨false, [], Option.none⟩
      [⟨0, RemoteOutcome.success 200 "a" "b"⟩]
  have h3 := C4_return_value true true Option.none 5 ⟨false, [], Option.none⟩
      [⟨(0 : ℚ), RemoteOutcome.clientError Option.none Option.none Option.none
          Option.none Option.none Option.none⟩,
        ⟨(0 : ℚ), RemoteOutcome.success 200 "a" "b"⟩]
  exact ⟨h.1 rfl, h2.2.1 rfl rfl rfl, h3.2.2 1 rfl⟩

/- ### C5 -/

/-- C5 (code bug): the spec's connection lifecycle `Closed -> Open ->
Closed` is not what the code does.  `open()` has no `return True`: when it
creates a connection it falls off the end and returns `None`, so
`new_conn_created` is always falsy and the `if new_conn_created:
self.close()` in `send_messages` (and the matching `finally` in
`get_rate_limit`) never runs.  Concretely: a `send_messages` call that
starts with no connection, opens one and sends one message successfully
leaves `self.connection` set on return. -/
theorem C5_connection_left_open :
    openConn true false false = Except.ok (true, Option.none) ∧
    (send_messages false true Option.none 5 ⟨false, [], Option.none⟩
        [⟨0, RemoteOutcome.success 200 "mid" "rid"⟩]).st.connection = true ∧
    (send_messages false true Option.none 5 ⟨false, [], Option.none⟩
        [⟨0, RemoteOutcome.success 200 "mid" "rid"⟩]).ret = SendRet.count 1 ∧
    (get_rate_limit true false 7 ⟨false, [], Option.none⟩ =
      Except.ok ⟨7, ⟨true, [], Option.some 7⟩, 1⟩) := by
  exact ⟨rfl, rfl, rfl, rfl⟩

/- ### C6 -/

/-- C6: `get_rate_limit` returns the cached value immediately with no
remote call when one is cached for the credential identity; with an empty
cache it fails when no connection can be established (neither an existing
one nor a fresh one); otherwise it queries the quota remotely once, caches
`MaxSendRate` as a float keyed by the credential identity, and returns
it. -/
theorem C6_rate_limit_cache (canConnect failSilently : Bool) (quota : ℚ)
    (st : BackendState) :
    (∀ r, st.cachedRateLimits = Option.some r →
      get_rate_limit canConnect failSilently quota st = Except.ok ⟨r, st, 0⟩) ∧
    (st.cachedRateLimits = Option.none → st.connection = false →
      canConnect = false →
      get_rate_limit canConnect failSilently quota st = Except.error ()) ∧
    (st.cachedRateLimits = Option.none →
      st.connection = true ∨ canConnect = true →
      get_rate_limit canConnect failSilently quota st =
        Except.ok ⟨quota, ⟨true, st.recentSendTimes, Option.some quota⟩, 1⟩) := by
  rcases st with ⟨conn, rst, crl⟩
  refine ⟨?_, ?_, ?_⟩
  · intro r hr
    simp only at hr
    subst hr
    rfl
  · intro h1 h2 h3
    simp only at h1 h2
    subst h1
    subst h2
    subst h3
    rcases failSilently with _ | _ <;> rfl
  · intro h1 h2
    simp only at h1 h2
    subst h1
    rcases h2 with h2 | h2
    · subst h2
      rfl
    · subst h2
      rcases conn with _ | _ <;> rfl

/-- Witness for C6: a cached value is returned untouched with no quota
call; an empty cache with no connection possibility raises; an empty cache
with a fresh connection queries once and caches the quota. -/
theorem C6_rate_limit_cache_witness :
    get_rate_limit false false 5 ⟨false, [], Option.some 9⟩ =
      Except.ok ⟨9, ⟨false, [], Option.some 9⟩, 0⟩ ∧
    get_rate_limit false true 5 ⟨false, [], Option.none⟩ = Except.error () ∧
    get_rate_limit true true 5 ⟨false, [3], Option.none⟩ =
      Except.ok ⟨5, ⟨true, [3], Option.some 5⟩, 1⟩ := by
  have h1 := C6_rate_limit_cache false false 5 ⟨false, [], Option.some 9⟩
  have h2 := C6_rate_limit_cache false true 5 ⟨false, [], Option.none⟩
  have h3 := C6_rate_limit_cache true true 5 ⟨false, [3], Option.none⟩
  exact ⟨h1.1 9 rfl, h2.2.1 rfl rfl rfl, h3.2.2 rfl (Or.inr rfl)⟩

/- ### C7 -/

/-- C7: when the remote send raises a client error for a message (reached,
i.e. the preceding throttle block does not itself raise), the six failure
fields are recorded on that message's metadata; without fail-silently the
error propagates, the counter is unchanged and the remaining messages are
not processed (no metadata is recorded on them); with fail-silently
processing continues with the next message, from some intermediate state,
without incrementing the counter.  In particular a fresh two-message batch
whose first message fails under fail-silently and whose second succeeds
returns count 1 with error metadata on the first message and success
metadata on the second. -/
theorem C7_client_error_handling (failSilently canConnect : Bool)
    (thr : Option ℚ) (quota : ℚ) (n : ℕ) (st : BackendState) (nw nw2 : ℚ)
    (rest : List MsgInput) (s r b rq ec em : Option String)
    (hreach : throttleEnabled thr = true →
      get_rate_limit canConnect failSilently quota st ≠ Except.error ()) :
    ((sendLoop failSilently canConnect thr quota n st
        (⟨nw, RemoteOutcome.clientError s r b rq ec em⟩ :: rest)).metas.head? =
      Option.some (MsgMeta.errorMeta s r b rq ec em)) ∧
    (failSilently = false →
      (sendLoop failSilently canConnect thr quota n st
          (⟨nw, RemoteOutcome.clientError s r b rq ec em⟩ :: rest)).raised = true ∧
      (sendLoop failSilently canConnect thr quota n st
          (⟨nw, RemoteOutcome.clientError s r b rq ec em⟩ :: rest)).numSent = n ∧
      (sendLoop failSilently canConnect thr quota n st
          (⟨nw, RemoteOutcome.clientError s r b rq ec em⟩ :: rest)).metas =
        MsgMeta.errorMeta s r b rq ec em ::
          List.replicate rest.length MsgMeta.noneRecorded) ∧
    (failSilently = true →
      ∃ st',
        (sendLoop failSilently canConnect thr quota n st
            (⟨nw, RemoteOutcome.clientError s r b rq ec em⟩ :: rest)).raised =
          (sendLoop failSilently canConnect thr quota n st' rest).raised ∧
        (sendLoop failSilently canConnect thr quota n st
            (⟨nw, RemoteOutcome.clientError s r b rq ec em⟩ :: rest)).numSent =
          (sendLoop failSilently canConnect thr quota n st' rest).numSent ∧
        (sendLoop failSilently canConnect thr quota n st
            (⟨nw, RemoteOutcome.clientError s r b rq ec em⟩ :: rest)).metas =
          MsgMeta.errorMeta s r b rq ec em ::
            (sendLoop failSilently canConnect thr quota n st' rest).metas) ∧
    ((send_messages true true Option.none quota ⟨false, [], Option.none⟩
        [⟨nw, RemoteOutcome.clientError s r b rq ec em⟩,
          ⟨nw2, RemoteOutcome.success 200 "mid2" "rid2"⟩]).ret =
      SendRet.count 1 ∧
      (send_messages true true Option.none quota ⟨false, [], Option.none⟩
          [⟨nw, RemoteOutcome.clientError s r b rq ec em⟩,
            ⟨nw2, RemoteOutcome.success 200 "mid2" "rid2"⟩]).metas =
        [MsgMeta.errorMeta s r b rq ec em,
          MsgMeta.successMeta 200 "mid2" "rid2"]) := by
  obtain ⟨st', sl, qc, rc, heq⟩ := sendLoop_cons_reach failSilently canConnect
    thr quota n st ⟨nw, RemoteOutcome.clientError s r b rq ec em⟩ rest hreach
  rcases failSilently with _ | _
  · simp only [dispatch, Bool.false_eq_true, if_false] at heq
    rw [heq]
    refine ⟨rfl, ?_, ?_, ⟨rfl, rfl⟩⟩
    · intro _
      exact ⟨rfl, rfl, rfl⟩
    · intro hcon
      exact absurd hcon (by simp)
  · simp only [dispatch, if_true] at heq
    rw [heq]
    refine ⟨rfl, ?_, ?_, ⟨rfl, rfl⟩⟩
    · intro hcon
      exact absurd hcon (by simp)
    · intro _
      exact ⟨st', rfl, rfl, rfl⟩

/-- Witness for C7 at a concrete batch: without fail-silently, a
client-error message aborts the loop with the six fields (here all `none`)
recorded on it and nothing on the remaining message. -/
theorem C7_client_error_handling_witness :
    (sendLoop false true Option.none 5 0 ⟨true, [], Option.none⟩
        [⟨0, RemoteOutcome.clientError Option.none Option.none Option.none
            Option.none Option.none Option.none⟩,
          ⟨0, RemoteOutcome.success 200 "m" "r"⟩]).raised = true ∧
    (sendLoop false true Option.none 5 0 ⟨true, [], Option.none⟩
        [⟨0, RemoteOutcome.clientError Option.none Option.none Option.none
            Option.none Option.none Option.none⟩,
          ⟨0, RemoteOutcome.success 200 "m" "r"⟩]).metas =
      MsgMeta.errorMeta Option.none Option.none Option.none Option.none
          Option.none Option.none ::
        List.replicate 1 MsgMeta.noneRecorded := by
  have h := C7_client_error_handling false true Option.none 5 0
      ⟨true, [], Option.none⟩ 0 0 [⟨0, RemoteOutcome.success 200 "m" "r"⟩]
      Option.none Option.none Option.none Option.none Option.none Option.none
      (fun hth => absurd hth (by simp [throttleEnabled]))
  exact ⟨(h.2.1 rfl).1, (h.2.1 rfl).2.2⟩

/- ### C8 -/

/-- C8: with throttling disabled (`AWS_SES_AUTO_THROTTLE` unset, `None`, or
`0`), `send_messages` performs no sleep and no timestamp bookkeeping for
any batch: the shared `recent_send_times` is left unchanged (as is the
rate-limit cache), and no `get_rate_limit` lookup and no remote quota call
occurs. -/
theorem C8_disabled_passthrough (failSilently canConnect : Bool)
    (thr : Option ℚ) (quota : ℚ) (st : BackendState) (msgs : List MsgInput)
    (hdis : throttleEnabled thr = false) :
    (send_messages failSilently canConnect thr quota st msgs).st.recentSendTimes =
      st.recentSendTimes ∧
    (send_messages failSilently canConnect thr quota st msgs).st.cachedRateLimits =
      st.cachedRateLimits ∧
    (send_messages failSilently canConnect thr quota st msgs).sleeps = [] ∧
    (send_messages failSilently canConnect thr quota st msgs).quotaCalls = 0 ∧
    (send_messages failSilently canConnect thr quota st msgs).rlCalls = 0 := by
  rcases msgs with _ | ⟨m, ms⟩
  · exact ⟨rfl, rfl, rfl, rfl, rfl⟩
  · rcases st with ⟨conn, rst, crl⟩
    have hsl := sendLoop_disabled failSilently canConnect thr quota hdis
      (m :: ms) 0 ⟨true, rst, crl⟩
    rcases conn with _ | _ <;> rcases canConnect with _ | _ <;>
      rcases failSilently with _ | _ <;>
      simp [send_messages, openConn, truthy, apply_ite,
        hsl.1, hsl.2.1, hsl.2.2.1, hsl.2.2.2]

/-- Witness for C8: one message sent with `AWS_SES_AUTO_THROTTLE = 0`
leaves the module state untouched and sleeps never. -/
theorem C8_disabled_passthrough_witness :
    (send_messages false true (Option.some 0) 5 ⟨false, [3], Option.none⟩
        [⟨9, RemoteOutcome.success 200 "m" "r"⟩]).st.recentSendTimes = [3] ∧
    (send_messages false true (Option.some 0) 5 ⟨false, [3], Option.none⟩
        [⟨9, RemoteOutcome.success 200 "m" "r"⟩]).sleeps = [] ∧
    (send_messages false true (Option.some 0) 5 ⟨false, [3], Option.none⟩
        [⟨9, RemoteOutcome.success 200 "m" "r"⟩]).rlCalls = 0 := by
  have h := C8_disabled_passthrough false true (Option.some 0) 5
      ⟨false, [3], Option.none⟩ [⟨9, RemoteOutcome.success 200 "m" "r"⟩]
      (by simp [throttleEnabled])
  exact ⟨h.1, h.2.2.1, h.2.2.2.2⟩

/- ### C10 -/

/-- C10: fail-silently suppresses only structured client errors.  A message
whose remote send raises an exception that is not a `ClientError` makes the
loop abort regardless of `fail_silently`: nothing is recorded on that
message, the counter is unchanged, and the remaining messages are not
processed. -/
theorem C10_non_client_error (failSilently canConnect : Bool)
    (thr : Option ℚ) (quota : ℚ) (n : ℕ) (st : BackendState) (nw : ℚ)
    (rest : List MsgInput)
    (hreach : throttleEnabled thr = true →
      get_rate_limit canConnect failSilently quota st ≠ Except.error ()) :
    (sendLoop failSilently canConnect thr quota n st
        (⟨nw, RemoteOutcome.otherError⟩ :: rest)).raised = true ∧
    (sendLoop failSilently canConnect thr quota n st
        (⟨nw, RemoteOutcome.otherError⟩ :: rest)).numSent = n ∧
    (sendLoop failSilently canConnect thr quota n st
        (⟨nw, RemoteOutcome.otherError⟩ :: rest)).metas =
      MsgMeta.noneRecorded :: List.replicate rest.length MsgMeta.noneRecorded := by
  obtain ⟨st', sl, qc, rc, heq⟩ := sendLoop_cons_reach failSilently canConnect
    thr quota n st ⟨nw, RemoteOutcome.otherError⟩ rest hreach
  simp only [dispatch, if_true] at heq
  rw [heq]
  exact ⟨rfl, rfl, rfl⟩

/-- Witness for C10: a non-client-error exception aborts a two-message
batch even with `fail_silently=True`, recording nothing. -/
theorem C10_non_client_error_witness :
    (sendLoop true true Option.none 5 0 ⟨true, [], Option.none⟩
        [⟨0, RemoteOutcome.otherError⟩,
          ⟨0, RemoteOutcome.success 200 "m" "r"⟩]).raised = true ∧
    (sendLoop true true Option.none 5 0 ⟨true, [], Option.none⟩
        [⟨0, RemoteOutcome.otherError⟩,
          ⟨0, RemoteOutcome.success 200 "m" "r"⟩]).numSent = 0 ∧
    (sendLoop true true Option.none 5 0 ⟨true, [], Option.none⟩
        [⟨0, RemoteOutcome.otherError⟩,
          ⟨0, RemoteOutcome.success 200 "m" "r"⟩]).metas =
      MsgMeta.noneRecorded :: List.replicate 1 MsgMeta.noneRecorded :=
  C10_non_client_error true true Option.none 5 0 ⟨true, [], Option.none⟩ 0
    [⟨0, RemoteOutcome.success 200 "m" "r"⟩]
    (fun hth => absurd hth (by simp [throttleEnabled]))

end DjangoSES
